import Mathlib

/-!
Verification development for the jschannel message-passing library
(src/jschannel.ts).  JavaScript values appearing in messages and handler
exceptions are modelled by the tree type JsValue below; stateful parts of the
library (the channel registry, the transaction tables, the pending queue, a
transaction record) are modelled as explicit state passed through executable
functions.  Each definition cites the source lines it embeds.  Exceptions
thrown by the JavaScript runtime or by the library are modelled with Except.
-/

/-
JavaScript runtime values, as a finite tree: objects are keyed containers,
arrays are sequences, functions are opaque leaves identified by a tag.  On
tree values, every object and array node is a distinct reference, so the
strict-equality seen list of pruneFunctions (src lines 666-669) can only
ever rediscover the shared primitive null; the guard is therefore modelled
as a flag recording whether null has been visited.
-/
mutual
/-- JavaScript runtime values, as a finite tree. -/
inductive JsValue where
  | null
  | undefined
  | bool (b : Bool)
  | num (n : Int)
  | str (s : String)
  | func (tag : Nat)
  | arr (elems : JsList)
  | obj (fields : JsFields)

inductive JsList where
  | nil
  | cons (hd : JsValue) (tl : JsList)

inductive JsFields where
  | nil
  | cons (key : String) (val : JsValue) (tl : JsFields)
end

/-- Exceptions of interest thrown while the library runs; recursiveParams is
the Error thrown by the recursion guard of pruneFunctions (src line 667,
params cannot be a recursive data structure). -/
inductive JsErr where
  | typeError
  | staleTransaction
  | recursiveParams

/-- Result of the typeof operator on a modelled value. -/
def typeofJs : JsValue → String
  | .null => "object"
  | .undefined => "undefined"
  | .bool _ => "boolean"
  | .num _ => "number"
  | .str _ => "string"
  | .func _ => "function"
  | .arr _ => "object"
  | .obj _ => "object"

/-- JavaScript truthiness of a modelled value. -/
def truthyB : JsValue → Bool
  | .null => false
  | .undefined => false
  | .bool b => b
  | .num n => n != 0
  | .str s => s != ""
  | .func _ => true
  | .arr _ => true
  | .obj _ => true

/-- Array.isArray, used by s_isArray (src lines 135-142). -/
def isArrB : JsValue → Bool
  | .arr _ => true
  | _ => false

/-- Strict comparison with null (the message === null checks). -/
def isNullB : JsValue → Bool
  | .null => true
  | _ => false

/-- Strict comparison with undefined. -/
def isUndefB : JsValue → Bool
  | .undefined => true
  | _ => false

def JsList.length : JsList → Nat
  | .nil => 0
  | .cons _ tl => JsList.length tl + 1

def JsList.getD : JsList → Nat → JsValue
  | .nil, _ => .undefined
  | .cons v _, 0 => v
  | .cons _ tl, n + 1 => JsList.getD tl n

/-- Length of an array value (0 on non-arrays; only used behind isArrB). -/
def arrLength : JsValue → Nat
  | .arr xs => xs.length
  | _ => 0

/-- Indexing into an array value; out-of-range reads yield undefined. -/
def arrGetD : JsValue → Nat → JsValue
  | .arr xs, i => xs.getD i
  | _, _ => .undefined

/-- First binding of a key among the own fields of an object. -/
def lookupField : JsFields → String → Option JsValue
  | .nil, _ => none
  | .cons k v tl, key => if k = key then some v else lookupField tl key

/-- Property read that can throw: reading a property of null or undefined
raises TypeError; on other primitives and on absent keys it yields
undefined. -/
def getFieldE : JsValue → String → Except JsErr JsValue
  | .null, _ => .error .typeError
  | .undefined, _ => .error .typeError
  | .obj fs, k =>
    .ok (match lookupField fs k with
         | some v => v
         | none => .undefined)
  | _, _ => .ok .undefined

/-- Property read on values already known not to be null or undefined. -/
def getFieldD : JsValue → String → JsValue
  | .obj fs, k =>
    (match lookupField fs k with
     | some v => v
     | none => .undefined)
  | _, _ => .undefined

/-
JSON text of a value, modelling JSON.stringify on the value trees that
occur here: object fields holding undefined or a function are skipped, array
elements holding undefined or a function encode as null.  String escaping is
not modelled (the strings reaching it in this development need none).
-/
mutual
/-- JSON text of a value, modelling JSON.stringify. -/
def encodeJson : JsValue → String
  | .null => "null"
  | .undefined => "null"
  | .bool b => if b then "true" else "false"
  | .num n => toString n
  | .str s => "\"" ++ s ++ "\""
  | .func _ => "null"
  | .arr xs => "[" ++ encodeJsonList xs ++ "]"
  | .obj fs => "\x7b" ++ String.intercalate "," (encodeFieldList fs) ++ "\x7d"

def encodeJsonList : JsList → String
  | .nil => ""
  | .cons v .nil => encodeJson v
  | .cons v tl => encodeJson v ++ "," ++ encodeJsonList tl

def encodeFieldList : JsFields → List String
  | .nil => []
  | .cons k v tl =>
    match v with
    | .undefined => encodeFieldList tl
    | .func _ => encodeFieldList tl
    | _ => ("\"" ++ k ++ "\":" ++ encodeJson v) :: encodeFieldList tl
end

/-- Top-level JSON.stringify: returns none (that is, undefined) when applied
to undefined or to a function value. -/
def jsonStringifyTop (v : JsValue) : Option String :=
  match v with
  | .undefined => none
  | .func _ => none
  | _ => some (encodeJson v)

/-- Generic string conversion used by the code as a fallback.  On arrays and
objects the exact text is irrelevant to this development: toStringPure is only
reached when jsonStringifyTop returned none, that is on function values. -/
def toStringPure : JsValue → String
  | .null => "null"
  | .undefined => "undefined"
  | .bool b => if b then "true" else "false"
  | .num n => toString n
  | .str s => s
  | .func _ => "function () \x7b\x7d"
  | .arr _ => ""
  | .obj _ => "[object Object]"

/-- Calling toString on a value: null and undefined have no toString, so the
call raises TypeError. -/
def toStringJsE : JsValue → Except JsErr String
  | .null => .error .typeError
  | .undefined => .error .typeError
  | v => .ok (toStringPure v)

/-- The message-is-still-null fallback of the catch block (src lines
500-512): JSON.stringify the value; when that yields undefined fall back to
toString.  Our finite trees never make stringify itself throw; a toString
failure would be rethrown by the identical toString call in the inner catch
handler, so it propagates. -/
def tryHarderE (v : JsValue) : Except JsErr JsValue :=
  match jsonStringifyTop v with
  | some s => .ok (.str s)
  | none =>
    match toStringJsE v with
    | .ok s => .ok (.str s)
    | .error err => .error err

/-- Error normalization of the onMessage catch block (src lines 473-515).
Given the raised value e, produce the pair (error, message) that is passed to
trans.error, or the exception the normalization code itself raises. -/
def normalizeError (e : JsValue) : Except JsErr (JsValue × JsValue) :=
  if typeofJs e = "string" then
    .ok (.str "runtime_error", e)
  else if typeofJs e = "object" then
    if truthyB e && isArrB e && (arrLength e == 2) then
      let code := arrGetD e 0
      let m := arrGetD e 1
      if isNullB m then
        match tryHarderE e with
        | .ok m2 => .ok (code, m2)
        | .error err => .error err
      else .ok (code, m)
    else
      match getFieldE e "error" with
      | .error err => .error err
      | .ok ef =>
        if typeofJs ef = "string" then
          let m := getFieldD e "message"
          if truthyB m then
            if typeofJs m = "string" then .ok (ef, m)
            else
              match tryHarderE m with
              | .ok m2 => .ok (ef, m2)
              | .error err => .error err
          else .ok (ef, .str "")
        else
          match tryHarderE e with
          | .ok m2 => .ok (.str "runtime_error", m2)
          | .error err => .error err
  else
    match tryHarderE e with
    | .ok m2 => .ok (.str "runtime_error", m2)
    | .error err => .error err

/-- Total form of the stringify-with-toString-fallback, for spec-side use on
values that are not null and not undefined. -/
def jsonMessage (v : JsValue) : JsValue :=
  match jsonStringifyTop v with
  | some s => .str s
  | none => .str (toStringPure v)

/-- Modelled from the spec wording of claim C6, amended: the normalization
precedence written as a direct case split on the shape of the raised value.
Raised null and undefined make the normalization itself throw; a two-element
array whose second element is null falls back to the stringification of the
whole array; otherwise the precedence is string, two-element array, object
with a string error field, stringification fallback. -/
def specNormalizeError : JsValue → Except JsErr (JsValue × JsValue)
  | .null => .error .typeError
  | .undefined => .error .typeError
  | .str s => .ok (.str "runtime_error", .str s)
  | .arr (.cons a (.cons b .nil)) =>
    .ok (a, match b with
            | .null => jsonMessage (.arr (.cons a (.cons b .nil)))
            | _ => b)
  | .obj fs =>
    (match lookupField fs "error" with
     | some (.str c) =>
       (match lookupField fs "message" with
        | none => .ok (.str c, .str "")
        | some m =>
          if truthyB m then
            match m with
            | .str s => .ok (.str c, .str s)
            | _ => .ok (.str c, jsonMessage m)
          else .ok (.str c, .str ""))
     | _ => .ok (.str "runtime_error", jsonMessage (.obj fs)))
  | v => .ok (.str "runtime_error", jsonMessage v)

/-
Callback marshalling, caller side: pruneFunctions (src lines 661-693).
-/

/-- Path joining of pruneFunctions (src line 676). -/
def joinPath (path k : String) : String :=
  path ++ (if path.length != 0 then "/" else "") ++ k

/-
Depth-first traversal of the params tree (src lines 661-693).  Every member
of typeof object (null, arrays, objects) is recursed into; each recursive
entry first checks the value against the seen list by strict equality and
then pushes it (src lines 666-669), throwing the recursive-params Error on a
hit.  On these tree values every object and array node is a distinct
reference, so the only value the seen list can hold twice is the shared
primitive null: the guard state is a single flag recording whether null has
been visited, threaded through the traversal, and the guard fires exactly
when a second null-typed value is entered.  Function-valued members are
deleted from their container and recorded under their slash-joined path; on
arrays, delete leaves an undefined hole; other members are kept.  Returns
the pruned value, the recorded (path, function tag) list in traversal order
and the updated guard flag, or the error the guard throws.
-/
mutual
/-- pruneFunctions of call (src lines 665-687). -/
def pruneFunctions (path : String) (seenNull : Bool) :
    JsValue → Except JsErr (JsValue × List (String × Nat) × Bool)
  | .null =>
    if seenNull then .error .recursiveParams
    else .ok (.null, [], true)
  | .obj fs =>
    match pruneFields path seenNull fs with
    | .error e => .error e
    | .ok (fs2, cbs, sn) => .ok (.obj fs2, cbs, sn)
  | .arr xs =>
    match pruneElems path 0 seenNull xs with
    | .error e => .error e
    | .ok (xs2, cbs, sn) => .ok (.arr xs2, cbs, sn)
  | v => .ok (v, [], seenNull)

/-- The for-in loop of pruneFunctions over the fields of an object. -/
def pruneFields (path : String) (seenNull : Bool) :
    JsFields → Except JsErr (JsFields × List (String × Nat) × Bool)
  | .nil => .ok (.nil, [], seenNull)
  | .cons k v tl =>
    let np := joinPath path k
    match v with
    | .func t =>
      match pruneFields path seenNull tl with
      | .error e => .error e
      | .ok (fs, cbs, sn) => .ok (fs, (np, t) :: cbs, sn)
    | .null =>
      match pruneFunctions np seenNull .null with
      | .error e => .error e
      | .ok (_, _, sn1) =>
        match pruneFields path sn1 tl with
        | .error e => .error e
        | .ok (fs, cbs, sn) => .ok (.cons k .null fs, cbs, sn)
    | .arr ys =>
      match pruneFunctions np seenNull (.arr ys) with
      | .error e => .error e
      | .ok (v2, cbs1, sn1) =>
        match pruneFields path sn1 tl with
        | .error e => .error e
        | .ok (fs, cbs, sn) => .ok (.cons k v2 fs, cbs1 ++ cbs, sn)
    | .obj fs0 =>
      match pruneFunctions np seenNull (.obj fs0) with
      | .error e => .error e
      | .ok (v2, cbs1, sn1) =>
        match pruneFields path sn1 tl with
        | .error e => .error e
        | .ok (fs, cbs, sn) => .ok (.cons k v2 fs, cbs1 ++ cbs, sn)
    | w =>
      match pruneFields path seenNull tl with
      | .error e => .error e
      | .ok (fs, cbs, sn) => .ok (.cons k w fs, cbs, sn)

/-- The for-in loop of pruneFunctions over the index keys of an array. -/
def pruneElems (path : String) (i : Nat) (seenNull : Bool) :
    JsList → Except JsErr (JsList × List (String × Nat) × Bool)
  | .nil => .ok (.nil, [], seenNull)
  | .cons v tl =>
    let np := joinPath path (toString i)
    match v with
    | .func t =>
      match pruneElems path (i + 1) seenNull tl with
      | .error e => .error e
      | .ok (xs, cbs, sn) => .ok (.cons .undefined xs, (np, t) :: cbs, sn)
    | .null =>
      match pruneFunctions np seenNull .null with
      | .error e => .error e
      | .ok (_, _, sn1) =>
        match pruneElems path (i + 1) sn1 tl with
        | .error e => .error e
        | .ok (xs, cbs, sn) => .ok (.cons .null xs, cbs, sn)
    | .arr ys =>
      match pruneFunctions np seenNull (.arr ys) with
      | .error e => .error e
      | .ok (v2, cbs1, sn1) =>
        match pruneElems path (i + 1) sn1 tl with
        | .error e => .error e
        | .ok (xs, cbs, sn) => .ok (.cons v2 xs, cbs1 ++ cbs, sn)
    | .obj fs0 =>
      match pruneFunctions np seenNull (.obj fs0) with
      | .error e => .error e
      | .ok (v2, cbs1, sn1) =>
        match pruneElems path (i + 1) sn1 tl with
        | .error e => .error e
        | .ok (xs, cbs, sn) => .ok (.cons v2 xs, cbs1 ++ cbs, sn)
    | w =>
      match pruneElems path (i + 1) seenNull tl with
      | .error e => .error e
      | .ok (xs, cbs, sn) => .ok (.cons w xs, cbs, sn)
end

mutual
/-- Does a value contain a function anywhere (at the root included)? -/
def hasFun : JsValue → Bool
  | .func _ => true
  | .arr xs => hasFunElems xs
  | .obj fs => hasFunFields fs
  | _ => false

def hasFunElems : JsList → Bool
  | .nil => false
  | .cons v tl => hasFun v || hasFunElems tl

def hasFunFields : JsFields → Bool
  | .nil => false
  | .cons _ v tl => hasFun v || hasFunFields tl
end

mutual
/-- Spec-side enumeration of the function-valued leaves reachable through
containers, with their slash-joined paths, in the same traversal order the
marshaller uses. -/
def funLeaves (path : String) : JsValue → List (String × Nat)
  | .obj fs => funLeavesFields path fs
  | .arr xs => funLeavesElems path 0 xs
  | _ => []

def funLeavesFields (path : String) : JsFields → List (String × Nat)
  | .nil => []
  | .cons k v tl =>
    let np := joinPath path k
    match v with
    | .func t => (np, t) :: funLeavesFields path tl
    | .null => funLeavesFields path tl
    | .arr xs => funLeaves np (.arr xs) ++ funLeavesFields path tl
    | .obj fs => funLeaves np (.obj fs) ++ funLeavesFields path tl
    | _ => funLeavesFields path tl

def funLeavesElems (path : String) (i : Nat) : JsList → List (String × Nat)
  | .nil => []
  | .cons v tl =>
    let np := joinPath path (toString i)
    match v with
    | .func t => (np, t) :: funLeavesElems path (i + 1) tl
    | .null => funLeavesElems path (i + 1) tl
    | .arr xs => funLeaves np (.arr xs) ++ funLeavesElems path (i + 1) tl
    | .obj fs => funLeaves np (.obj fs) ++ funLeavesElems path (i + 1) tl
    | _ => funLeavesElems path (i + 1) tl
end

/-
Callback marshalling, receiving side: the stub-installation loop of onMessage
(src lines 449-468).
-/

/-- Split a path string at slashes, as String.prototype.split does. -/
def splitSlashGo : List Char → List String
  | [] => [""]
  | c :: cs =>
    let rest := splitSlashGo cs
    if c = '/' then "" :: rest
    else
      match rest with
      | [] => [String.mk [c]]
      | r :: rs => String.mk (c :: r.toList) :: rs

def splitSlash (s : String) : List String :=
  splitSlashGo s.toList

/-- Array.prototype.findIndex requires a callable predicate.  The code at src
line 454 passes the string j (a path segment), so the call raises TypeError
before anything else in the loop body runs. -/
def findIndexJs (pathItems : List String) (j : String) : Except JsErr Nat :=
  match pathItems, j with
  | _, _ => .error .typeError

/-- The stub-installation loop of onMessage (src lines 449-468): for each
declared callback path, split it and walk the segments.  The first statement
executed for the first segment is pathItems.findIndex(j), which throws, so
the remainder of the loop body (the path walk and the stub assignment, src
lines 455-466) is unreachable and elided. -/
def installStubs (callbacks : List String) (params : JsValue) :
    Except JsErr JsValue :=
  match callbacks with
  | [] => .ok params
  | i :: rest =>
    match splitSlash i with
    | [] => installStubs rest params
    | j :: _ =>
      match findIndexJs (splitSlash i) j with
      | .error err => .error err
      | .ok _ => installStubs rest params

/-- Wire messages emitted while serving one inbound request. -/
inductive WireMsg where
  | response (id : Nat) (result : JsValue)
  | errorResp (id : Nat) (error message : JsValue)
  | callbackInv (id : Nat) (cb : String) (params : JsValue)

/-- The value caught when the modelled runtime exception surfaces in the
catch block: a TypeError instance, an object with no own enumerable
properties. -/
def exnValue : JsErr → JsValue
  | .typeError => .obj .nil
  | .staleTransaction => .obj .nil
  | .recursiveParams => .obj .nil

/-- Serving an inbound request that has a bound handler (onMessage, src lines
441-515): record the transaction, install callback stubs, run the handler and
complete with its return value, or normalize a thrown value into an error
response.  The handler is modelled as a pure function that neither delays nor
completes the transaction itself.  Returns whether the handler was invoked
and the messages sent. -/
def processRequest (id : Nat) (callbacks : List String) (params : JsValue)
    (handler : JsValue → JsValue) : Bool × List WireMsg :=
  match installStubs callbacks params with
  | .ok ps =>
    let resp := handler ps
    (true, [.response id resp])
  | .error e =>
    match normalizeError (exnValue e) with
    | .ok (c, m) => (false, [.errorResp id c m])
    | .error _ => (false, [])

/-
Channel registry: s_boundChans with s_addBoundChan and s_removeBoundChan
(src lines 69-133), and routing by s_onMessage (src lines 196-215).
-/

/-- One entry of a scope bucket: the remote window and a tag identifying the
registered handler. -/
abbrev BCEntry := Nat × Nat

/-- Scope table of one origin: scope string to entries. -/
abbrev ScopeTbl := List (String × List BCEntry)

/-- The process-wide s_boundChans table: origin to scope table, in insertion
order as a JavaScript object iterates its keys. -/
abbrev BoundChans := List (String × ScopeTbl)

/-- The hasWin helper of s_addBoundChan (src lines 73-80). -/
def hasWin (arr : List BCEntry) (win : Nat) : Bool :=
  arr.any (fun e => e.1 == win)

/-- Association lookup, as reading a property of a plain object. -/
def lookupA {α : Type} (k : String) : List (String × α) → Option α
  | [] => none
  | (k2, v) :: tl => if k2 = k then some v else lookupA k tl

/-- Association update: an existing key keeps its position, a new key is
appended, as property assignment on a plain object. -/
def updateA {α : Type} (k : String) (v : α) : List (String × α) → List (String × α)
  | [] => [(k, v)]
  | (k2, w) :: tl => if k2 = k then (k2, v) :: tl else (k2, w) :: updateA k v tl

/-- Association removal, as the delete operator. -/
def removeA {α : Type} (k : String) : List (String × α) → List (String × α)
  | [] => []
  | (k2, w) :: tl => if k2 = k then tl else (k2, w) :: removeA k tl

/-- Reading s_boundChans at an origin and then a scope. -/
def scopeWins (bc : BoundChans) (origin scope : String) : Option (List BCEntry) :=
  match lookupA origin bc with
  | some scopes => lookupA scope scopes
  | none => none

/-- The error class of a failed registration; the code throws an Error whose
message names the overlapping origin and scope (src line 110). -/
inductive BindError where
  | duplicateBinding

/-- Appending a fresh entry, creating the origin and scope buckets when
absent (src lines 113-119). -/
def pushBoundChan (bc : BoundChans) (origin scope : String) (e : BCEntry) :
    BoundChans :=
  let scopes := (lookupA origin bc).getD []
  let arr := (lookupA scope scopes).getD []
  updateA origin (updateA scope (arr ++ [e]) scopes) bc

/-- s_addBoundChan (src lines 72-120).  When the new origin is the wildcard,
the duplicate scan iterates every origin key but explicitly skips the key
that is the wildcard itself (src lines 86-99); otherwise the wildcard bucket
and then the exact-origin bucket are checked (src lines 100-108). -/
def s_addBoundChan (bc : BoundChans) (win : Nat) (origin scope : String)
    (tag : Nat) : Except BindError BoundChans :=
  let dup :=
    if origin = "*" then
      bc.any (fun kv =>
        (kv.1 != "*") &&
          (match lookupA scope kv.2 with
           | some arr => hasWin arr win
           | none => false))
    else
      (match scopeWins bc "*" scope with
       | some arr => hasWin arr win
       | none => false) ||
      (match scopeWins bc origin scope with
       | some arr => hasWin arr win
       | none => false)
  if dup then .error .duplicateBinding
  else .ok (pushBoundChan bc origin scope (win, tag))

/-- s_removeBoundChan (src lines 122-133): reading
s_boundChans[origin][scope] throws TypeError when the origin bucket is
absent, and iterating the scope bucket throws when the scope key is absent;
otherwise entries of the window are nulled and filtered out, and an emptied
scope bucket is deleted (the origin bucket is never deleted). -/
def s_removeBoundChanE (bc : BoundChans) (origin scope : String) (win : Nat) :
    Except JsErr BoundChans :=
  match lookupA origin bc with
  | none => .error .typeError
  | some scopes =>
    match lookupA scope scopes with
    | none => .error .typeError
    | some arr =>
      let arr2 := arr.filter (fun e => e.1 != win)
      if arr2.isEmpty then
        .ok (updateA origin (removeA scope scopes) bc)
      else
        .ok (updateA origin (updateA scope arr2 scopes) bc)

/-- First entry of a scope bucket whose window matches (the for loops with
break in s_onMessage, src lines 199-205 and 209-214). -/
def findWinEntry (arr : List BCEntry) (win : Nat) : Option BCEntry :=
  arr.find? (fun e => e.1 == win)

/-- Routing of a Request or Notification by s_onMessage (src lines 196-215):
the exact-origin bucket is tried first, then the wildcard bucket; the result
is the tag of the handler that is invoked, or none when no handler runs. -/
def routeMeth (bc : BoundChans) (o s : String) (win : Nat) : Option Nat :=
  let exactHit : Option Nat :=
    match scopeWins bc o s with
    | some arr => (findWinEntry arr win).map Prod.snd
    | none => none
  match exactHit with
  | some t => some t
  | none =>
    match scopeWins bc "*" s with
    | some arr => (findWinEntry arr win).map Prod.snd
    | none => none

/-
Listener lifetime: the process-wide message listener is attached once at
module initialization (src lines 223-228) and destroy detaches it
unconditionally (src lines 724-728).
-/

/-- Process state for listener-lifetime questions: the registry and whether
the single process-wide message listener is still attached. -/
structure Proc4 where
  bound : BoundChans
  listenerAttached : Bool

/-- destroy, registry and listener part (src lines 722-728): unregister this
channel, then call window.removeEventListener unconditionally, whether or not
other live channels remain. -/
def destroy4 (st : Proc4) (win : Nat) (origin scope : String) :
    Except JsErr Proc4 :=
  match s_removeBoundChanE st.bound origin scope win with
  | .error e => .error e
  | .ok bc => .ok { bound := bc, listenerAttached := false }

/-- Delivery of an inbound Request or Notification: the transport invokes
s_onMessage only while the listener is attached. -/
def deliverInbound (st : Proc4) (o s : String) (win : Nat) : Option Nat :=
  if st.listenerAttached then routeMeth st.bound o s win else none

/-
Double destroy: cfg.origin is set to null by the first destroy (src line
733), so the second call reads s_boundChans[null], whose key coerces to the
string "null".
-/

/-- The per-channel configuration fields destroy uses; origin is none once
destroy has nulled it. -/
structure Chan8 where
  win : Nat
  origin : Option String
  scope : String

/-- destroy (src lines 722-737) acting on the shared tables: unregister using
the possibly nulled cfg.origin (a null origin coerces to the property key
"null"), then null cfg.origin.  The listener detach and the clearing of the
local tables touch no shared table, and s_transIds is never touched.  The
transIds argument is passed through untouched to make that explicit. -/
def destroy8 (c : Chan8) (bc : BoundChans) (transIds : List Nat) :
    Except JsErr (Chan8 × BoundChans × List Nat) :=
  let key := match c.origin with
             | some o => o
             | none => "null"
  match s_removeBoundChanE bc key c.scope c.win with
  | .error e => .error e
  | .ok bc2 => .ok ({ c with origin := none }, bc2, transIds)

/-
Transaction ids: call and destroy against the process-wide s_transIds table
(src lines 144-148, 702-709, 722-737) and response dispatch (src lines
216-219 and 524-543).
-/

/-- State slice for the transaction-router claims: the global id counter and
s_transIds, plus the fields of one channel that call, destroy and response
dispatch read (messages are abbreviated to their transaction ids). -/
structure C3State where
  curTranId : Nat
  transIds : List Nat
  outTbl : List Nat
  ready : Bool
  pendingQueue : List Nat
  sent : List Nat

/-- postMessage (src lines 569-590): queue when not ready, send otherwise. -/
def postMessage3 (st : C3State) (msgId : Nat) : C3State :=
  if st.ready then { st with sent := st.sent ++ [msgId] }
  else { st with pendingQueue := st.pendingQueue ++ [msgId] }

/-- call (src lines 702-709): record the outstanding request under the
current id in both outTbl and s_transIds, increment the counter, post the
request. -/
def callOp (st : C3State) : C3State :=
  let id := st.curTranId
  postMessage3
    { st with
      outTbl := id :: st.outTbl
      transIds := id :: st.transIds
      curTranId := id + 1 } id

/-- destroy, table part (src lines 722-737): the local tables are reset and
the queue dropped, but no entry is removed from s_transIds. -/
def destroyOp3 (st : C3State) : C3State :=
  { st with outTbl := [], ready := false, pendingQueue := [] }

/-- Synthetic delivery of a Response carrying the given id: s_onMessage looks
the id up in s_transIds (src lines 216-219) and invokes the registered
onMessage closure, whose response branch (src lines 524-543) consults the
owning channel current outTbl; an id absent there is logged and ignored.  The
id-zero guard mirrors the m.id truthiness test at src line 524. -/
def dispatchResponse (st : C3State) (id : Nat) : Except JsErr C3State :=
  if st.transIds.contains id then
    if id != 0 then
      if st.outTbl.contains id then
        .ok { st with
              outTbl := st.outTbl.filter (fun x => x != id)
              transIds := st.transIds.filter (fun x => x != id) }
      else .ok st
    else .ok st
  else .ok st

/-
Pending queue flush on ready (src lines 569-590 and 612-615).
-/

/-- Channel state for the queue-flush claim; message payloads are opaque. -/
structure Chan5 where
  ready : Bool
  pendingQueue : List Nat
  sent : List Nat

/-- postMessage (src lines 569-590): while not ready and not forced, push the
message onto the pending queue; otherwise send it. -/
def postMessage5 (st : Chan5) (m : Nat) (force : Bool) : Chan5 :=
  if !force && !st.ready then
    { st with pendingQueue := st.pendingQueue ++ [m] }
  else
    { st with sent := st.sent ++ [m] }

/-- The while loop of onReady (src lines 612-615): while the queue is
nonempty, post pendingQueue.pop(), the most recently queued message.  The
ready flag is already true (set at src line 605), so each post sends
immediately; the loop is modelled directly on the queue and the sent log. -/
def flushLoop : List Nat → List Nat → List Nat
  | [], sent => sent
  | a :: q, sent =>
    flushLoop (a :: q).dropLast (sent ++ [(a :: q).getLastD 0])
  termination_by q _ => q.length
  decreasing_by simp [List.length_dropLast]

/-- onReady (src lines 592-621), queue part: set ready, then flush the
pending queue via the pop loop. -/
def onReady5 (st : Chan5) : Chan5 :=
  let st1 := { st with ready := true }
  { st1 with pendingQueue := [], sent := flushLoop st1.pendingQueue st1.sent }

/-- A fresh channel before the handshake. -/
def chan5Init : Chan5 :=
  { ready := false, pendingQueue := [], sent := [] }

/-- Queue a list of messages on a not-ready channel, in order. -/
def enqueueAll (msgs : List Nat) : Chan5 :=
  msgs.foldl (fun st m => postMessage5 st m false) chan5Init

/-
Transaction lifecycle: createTransaction (src lines 351-411).
-/

/-- State of one inbound transaction: whether inTbl still holds its id,
the completed flag, and the sticky delayReturn flag. -/
structure TransState where
  inTable : Bool
  completed : Bool
  shouldDelayReturn : Bool

/-- A completion attempt on a transaction. -/
inductive TransOp where
  | complete (v : Nat)
  | errorOp (code msg : Nat)

/-- The message a successful completion posts. -/
inductive TransMsg where
  | response (v : Nat)
  | errResp (code msg : Nat)

/-- The complete and error operations of createTransaction (src lines
377-400): both set completed first, then throw when the id is no longer in
inTbl, else delete the id from inTbl and post the corresponding message. -/
def transStep (s : TransState) (op : TransOp) : TransState × Except JsErr TransMsg :=
  match op with
  | .complete v =>
    if s.inTable then
      ({ s with completed := true, inTable := false }, .ok (.response v))
    else
      ({ s with completed := true }, .error .staleTransaction)
  | .errorOp c m =>
    if s.inTable then
      ({ s with completed := true, inTable := false }, .ok (.errResp c m))
    else
      ({ s with completed := true }, .error .staleTransaction)

/-- Run a sequence of completion attempts, collecting each outcome. -/
def runOps (s : TransState) : List TransOp → TransState × List (Except JsErr TransMsg)
  | [] => (s, [])
  | op :: ops =>
    let r := transStep s op
    let rest := runOps r.1 ops
    (rest.1, r.2 :: rest.2)

/-- The message an operation posts when it is the one that succeeds. -/
def opMsg : TransOp → TransMsg
  | .complete v => .response v
  | .errorOp c m => .errResp c m

/-
Transaction id seeding (src lines 57-61).
-/

/-- The seeding expression Math.floor(Math.random() * 1000001) (src line 61),
as a function of the random source value r in the interval from 0 inclusive
to 1 exclusive. -/
def s_curTranIdSeed (r : ℚ) : ℤ :=
  Int.floor (r * 1000001)

/-
Helper lemmas.
-/

/-- On any value other than undefined, the stringify-with-fallback of the
catch block succeeds and agrees with its total form. -/
theorem tryHarderE_eq (v : JsValue) (h : isUndefB v = false) :
    tryHarderE v = .ok (jsonMessage v) := by
  cases v <;> simp_all [tryHarderE, jsonStringifyTop, jsonMessage, toStringJsE, isUndefB]

/-- Flushing a queue extended by one message posts that message first. -/
theorem flushLoop_concat (q : List Nat) (a : Nat) (sent : List Nat) :
    flushLoop (q ++ [a]) sent = flushLoop q (sent ++ [a]) := by
  cases q with
  | nil => simp [flushLoop]
  | cons h t =>
    rw [List.cons_append, flushLoop]
    rw [show h :: (t ++ [a]) = (h :: t) ++ [a] from (List.cons_append h t [a]).symm]
    rw [List.dropLast_concat, List.getLastD_concat]

/-- The pop loop posts the queued messages in reverse enqueue order. -/
theorem flushLoop_eq (q sent : List Nat) : flushLoop q sent = sent ++ q.reverse := by
  induction q using List.reverseRecOn generalizing sent with
  | nil => simp [flushLoop]
  | append_singleton t a ih => rw [flushLoop_concat, ih]; simp

/-- Posting a list of messages on a not-ready channel appends them, in
order, to the pending queue. -/
theorem postAll_pending (msgs : List Nat) (q s : List Nat) :
    msgs.foldl (fun st m => postMessage5 st m false) ⟨false, q, s⟩
      = ⟨false, q ++ msgs, s⟩ := by
  induction msgs generalizing q with
  | nil => simp
  | cons m tl ih =>
    rw [List.foldl_cons, show postMessage5 ⟨false, q, s⟩ m false
      = (⟨false, q ++ [m], s⟩ : Chan5) from rfl, ih]
    simp

/-- Once the id has left inTbl, every further completion attempt fails with
the stale-transaction error. -/
theorem runOps_stale (s : TransState) (ops : List TransOp) (h : s.inTable = false) :
    ∀ r ∈ (runOps s ops).2, r = .error .staleTransaction := by
  induction ops generalizing s with
  | nil => simp [runOps]
  | cons op tl ih =>
    have hstep : transStep s op
        = ({ s with completed := true }, .error .staleTransaction) := by
      cases op <;> simp [transStep, h]
    intro r hr
    rw [runOps, hstep] at hr
    simp only [List.mem_cons] at hr
    rcases hr with hr | hr
    · exact hr
    · exact ih { s with completed := true } h r hr

mutual
/-- Characterization of a successful pruneFunctions run: when the value is
of typeof object the result holds no function anywhere, and the recorded
callbacks are exactly the function leaves of the original value.  A run on
which the recursion guard fires claims nothing. -/
theorem pruneFnOk (path : String) (sn0 : Bool) (v : JsValue) :
    match pruneFunctions path sn0 v with
    | .ok r => (typeofJs v = "object" → hasFun r.1 = false) ∧
        r.2.1 = funLeaves path v
    | .error _ => True := by
  cases v with
  | null => cases sn0 <;> simp [pruneFunctions, hasFun, funLeaves]
  | obj fs =>
    have ih := pruneFieldsOk path sn0 fs
    cases hr : pruneFields path sn0 fs with
    | error e => simp [pruneFunctions, hr]
    | ok r2 =>
      obtain ⟨fs2, cbs2, sn2⟩ := r2
      rw [hr] at ih
      have ih1 : hasFunFields fs2 = false := ih.1
      have ih2 : cbs2 = funLeavesFields path fs := ih.2
      simp [pruneFunctions, hr, hasFun, funLeaves, ih1, ih2]
  | arr xs =>
    have ih := pruneElemsOk path 0 sn0 xs
    cases hr : pruneElems path 0 sn0 xs with
    | error e => simp [pruneFunctions, hr]
    | ok r2 =>
      obtain ⟨xs2, cbs2, sn2⟩ := r2
      rw [hr] at ih
      have ih1 : hasFunElems xs2 = false := ih.1
      have ih2 : cbs2 = funLeavesElems path 0 xs := ih.2
      simp [pruneFunctions, hr, hasFun, funLeaves, ih1, ih2]
  | undefined => simp [pruneFunctions, typeofJs, funLeaves]
  | bool b => simp [pruneFunctions, typeofJs, funLeaves]
  | num n => simp [pruneFunctions, typeofJs, funLeaves]
  | str s => simp [pruneFunctions, typeofJs, funLeaves]
  | func t => simp [pruneFunctions, typeofJs, funLeaves]

/-- Characterization of a successful pruneFields run over object fields. -/
theorem pruneFieldsOk (path : String) (sn0 : Bool) (fs : JsFields) :
    match pruneFields path sn0 fs with
    | .ok r => hasFunFields r.1 = false ∧ r.2.1 = funLeavesFields path fs
    | .error _ => True := by
  cases fs with
  | nil => simp [pruneFields, hasFunFields, funLeavesFields]
  | cons k v tl =>
    cases v
    case null =>
      cases sn0 with
      | true => simp [pruneFields, pruneFunctions]
      | false =>
        have ih := pruneFieldsOk path true tl
        cases hr : pruneFields path true tl with
        | error e => simp [pruneFields, pruneFunctions, hr]
        | ok r2 =>
          obtain ⟨fs2, cbs2, sn2⟩ := r2
          rw [hr] at ih
          have ih1 : hasFunFields fs2 = false := ih.1
          have ih2 : cbs2 = funLeavesFields path tl := ih.2
          simp [pruneFields, pruneFunctions, hr, hasFunFields, hasFun,
            funLeavesFields, ih1, ih2]
    case arr ys =>
      have ihv := pruneFnOk (joinPath path k) sn0 (.arr ys)
      cases hrv : pruneFunctions (joinPath path k) sn0 (.arr ys) with
      | error e => simp [pruneFields, hrv]
      | ok rv =>
        obtain ⟨v2, cbs1, sn1⟩ := rv
        rw [hrv] at ihv
        have ihv1 : hasFun v2 = false := ihv.1 rfl
        have ihv2 : cbs1 = funLeaves (joinPath path k) (.arr ys) := ihv.2
        have ih := pruneFieldsOk path sn1 tl
        cases hr : pruneFields path sn1 tl with
        | error e => simp [pruneFields, hrv, hr]
        | ok r2 =>
          obtain ⟨fs2, cbs2, sn2⟩ := r2
          rw [hr] at ih
          have ih1 : hasFunFields fs2 = false := ih.1
          have ih2 : cbs2 = funLeavesFields path tl := ih.2
          simp [pruneFields, hrv, hr, hasFunFields, funLeavesFields,
            ih1, ih2, ihv1, ihv2]
    case obj fs0 =>
      have ihv := pruneFnOk (joinPath path k) sn0 (.obj fs0)
      cases hrv : pruneFunctions (joinPath path k) sn0 (.obj fs0) with
      | error e => simp [pruneFields, hrv]
      | ok rv =>
        obtain ⟨v2, cbs1, sn1⟩ := rv
        rw [hrv] at ihv
        have ihv1 : hasFun v2 = false := ihv.1 rfl
        have ihv2 : cbs1 = funLeaves (joinPath path k) (.obj fs0) := ihv.2
        have ih := pruneFieldsOk path sn1 tl
        cases hr : pruneFields path sn1 tl with
        | error e => simp [pruneFields, hrv, hr]
        | ok r2 =>
          obtain ⟨fs2, cbs2, sn2⟩ := r2
          rw [hr] at ih
          have ih1 : hasFunFields fs2 = false := ih.1
          have ih2 : cbs2 = funLeavesFields path tl := ih.2
          simp [pruneFields, hrv, hr, hasFunFields, funLeavesFields,
            ih1, ih2, ihv1, ihv2]
    all_goals
      have ih := pruneFieldsOk path sn0 tl
      cases hr : pruneFields path sn0 tl with
      | error e => simp [pruneFields, hr]
      | ok r2 =>
        obtain ⟨fs2, cbs2, sn2⟩ := r2
        rw [hr] at ih
        have ih1 : hasFunFields fs2 = false := ih.1
        have ih2 : cbs2 = funLeavesFields path tl := ih.2
        simp [pruneFields, hr, hasFunFields, hasFun, funLeavesFields,
          ih1, ih2]

/-- Characterization of a successful pruneElems run over array elements. -/
theorem pruneElemsOk (path : String) (i : Nat) (sn0 : Bool) (xs : JsList) :
    match pruneElems path i sn0 xs with
    | .ok r => hasFunElems r.1 = false ∧ r.2.1 = funLeavesElems path i xs
    | .error _ => True := by
  cases xs with
  | nil => simp [pruneElems, hasFunElems, funLeavesElems]
  | cons v tl =>
    cases v
    case null =>
      cases sn0 with
      | true => simp [pruneElems, pruneFunctions]
      | false =>
        have ih := pruneElemsOk path (i + 1) true tl
        cases hr : pruneElems path (i + 1) true tl with
        | error e => simp [pruneElems, pruneFunctions, hr]
        | ok r2 =>
          obtain ⟨xs2, cbs2, sn2⟩ := r2
          rw [hr] at ih
          have ih1 : hasFunElems xs2 = false := ih.1
          have ih2 : cbs2 = funLeavesElems path (i + 1) tl := ih.2
          simp [pruneElems, pruneFunctions, hr, hasFunElems, hasFun,
            funLeavesElems, ih1, ih2]
    case arr ys =>
      have ihv := pruneFnOk (joinPath path (toString i)) sn0 (.arr ys)
      cases hrv : pruneFunctions (joinPath path (toString i)) sn0 (.arr ys) with
      | error e => simp [pruneElems, hrv]
      | ok rv =>
        obtain ⟨v2, cbs1, sn1⟩ := rv
        rw [hrv] at ihv
        have ihv1 : hasFun v2 = false := ihv.1 rfl
        have ihv2 : cbs1 = funLeaves (joinPath path (toString i)) (.arr ys) := ihv.2
        have ih := pruneElemsOk path (i + 1) sn1 tl
        cases hr : pruneElems path (i + 1) sn1 tl with
        | error e => simp [pruneElems, hrv, hr]
        | ok r2 =>
          obtain ⟨xs2, cbs2, sn2⟩ := r2
          rw [hr] at ih
          have ih1 : hasFunElems xs2 = false := ih.1
          have ih2 : cbs2 = funLeavesElems path (i + 1) tl := ih.2
          simp [pruneElems, hrv, hr, hasFunElems, funLeavesElems,
            ih1, ih2, ihv1, ihv2]
    case obj fs0 =>
      have ihv := pruneFnOk (joinPath path (toString i)) sn0 (.obj fs0)
      cases hrv : pruneFunctions (joinPath path (toString i)) sn0 (.obj fs0) with
      | error e => simp [pruneElems, hrv]
      | ok rv =>
        obtain ⟨v2, cbs1, sn1⟩ := rv
        rw [hrv] at ihv
        have ihv1 : hasFun v2 = false := ihv.1 rfl
        have ihv2 : cbs1 = funLeaves (joinPath path (toString i)) (.obj fs0) := ihv.2
        have ih := pruneElemsOk path (i + 1) sn1 tl
        cases hr : pruneElems path (i + 1) sn1 tl with
        | error e => simp [pruneElems, hrv, hr]
        | ok r2 =>
          obtain ⟨xs2, cbs2, sn2⟩ := r2
          rw [hr] at ih
          have ih1 : hasFunElems xs2 = false := ih.1
          have ih2 : cbs2 = funLeavesElems path (i + 1) tl := ih.2
          simp [pruneElems, hrv, hr, hasFunElems, funLeavesElems,
            ih1, ih2, ihv1, ihv2]
    all_goals
      have ih := pruneElemsOk path (i + 1) sn0 tl
      cases hr : pruneElems path (i + 1) sn0 tl with
      | error e => simp [pruneElems, hr]
      | ok r2 =>
        obtain ⟨xs2, cbs2, sn2⟩ := r2
        rw [hr] at ih
        have ih1 : hasFunElems xs2 = false := ih.1
        have ih2 : cbs2 = funLeavesElems path (i + 1) tl := ih.2
        simp [pruneElems, hr, hasFunElems, hasFun, funLeavesElems,
          ih1, ih2]
end

/-
Claim theorems.
-/

/-- C1: evaluation of the code at the failing input.  For a Request that
declares the callback path onProgress and has a bound handler, the
stub-installation loop evaluates pathItems.findIndex(j) with the string j,
which throws TypeError; the exception is caught by the handler-exception
path, so the bound handler is never invoked and an ErrorResponse with code
runtime_error and message the stringified TypeError is sent, instead of the
handler receiving a callable stub at onProgress. -/
theorem C1_callback_stub_installation_throws :
    processRequest 1 ["onProgress"] (.obj .nil) (fun p => p)
      = (false, [.errorResp 1 (.str "runtime_error") (.str "\x7b\x7d")]) := rfl

/-- C2: evaluation of the code at the failing input.  Registering a second
channel with the same window 1 and scope a when both origins are the
wildcard succeeds (the duplicate scan skips the wildcard key), instead of
failing with DuplicateBinding as the claim requires. -/
theorem C2_wildcard_duplicate_not_detected :
    s_addBoundChan [] 1 "*" "a" 10 = .ok [("*", [("a", [(1, 10)])])] ∧
    s_addBoundChan [("*", [("a", [(1, 10)])])] 1 "*" "a" 20
      = .ok [("*", [("a", [(1, 10), (1, 20)])])] := ⟨rfl, rfl⟩

/-- C3: counterexample to the claim as stated.  Starting from a channel with
no outstanding requests and counter 5, a call followed immediately by
destroy leaves the allocated id 5 still registered in the process-wide
s_transIds table (while the local outTbl is cleared), so destroy does not
leave the transaction router free of the entry. -/
theorem C3_residual_transid_after_destroy :
    ((destroyOp3 (callOp ⟨5, [], [], true, [], []⟩)).transIds).contains 5 = true ∧
    (destroyOp3 (callOp ⟨5, [], [], true, [], []⟩)).outTbl = [] := ⟨rfl, rfl⟩

/-- C3 (amended): from any channel state, a call followed immediately by
destroy leaves the allocated transaction id still registered in the
process-wide s_transIds table, but a later delivered message carrying that
id is ignored without crashing: the registered closure consults the cleared
local outTbl, finds nothing, and returns leaving the state unchanged. -/
theorem C3_destroy_keeps_transid_delivery_ignored (st : C3State) :
    ((destroyOp3 (callOp st)).transIds).contains st.curTranId = true ∧
    dispatchResponse (destroyOp3 (callOp st)) st.curTranId
      = .ok (destroyOp3 (callOp st)) := by
  have h1 : (destroyOp3 (callOp st)).transIds = st.curTranId :: st.transIds := by
    simp only [callOp, postMessage3, destroyOp3]
    split <;> rfl
  have h2 : (destroyOp3 (callOp st)).outTbl = [] := rfl
  refine ⟨by rw [h1]; simp, ?_⟩
  rw [dispatchResponse, h1, h2]
  simp

/-- C4: evaluation of the code at the failing input.  With two live channels
registered (windows 1 and 2), destroying the first succeeds but sets the
process-wide listener flag to false, even though the second channel is still
registered and would be routed to; with the listener detached, an inbound
message for the surviving channel is not delivered at all, contradicting the
claim that the listener is detached only when the last live channel is
destroyed. -/
theorem C4_destroy_detaches_listener_with_live_channel_remaining :
    destroy4
        { bound := [("http://a.com", [("s", [(1, 10)])]),
                    ("http://b.com", [("s", [(2, 20)])])],
          listenerAttached := true } 1 "http://a.com" "s"
      = .ok { bound := [("http://a.com", []), ("http://b.com", [("s", [(2, 20)])])],
              listenerAttached := false } ∧
    routeMeth [("http://a.com", []), ("http://b.com", [("s", [(2, 20)])])]
        "http://b.com" "s" 2 = some 20 ∧
    deliverInbound
        { bound := [("http://a.com", []), ("http://b.com", [("s", [(2, 20)])])],
          listenerAttached := false } "http://b.com" "s" 2 = none :=
  ⟨rfl, rfl, rfl⟩

/-- C5: once the handshake completes, every message queued on the not-ready
channel is sent exactly once, and the flush sends them in last-in-first-out
order, the most recently enqueued message first (the sent sequence is the
reverse of the enqueue sequence). -/
theorem C5_flush_lifo_exactly_once (msgs : List Nat) :
    (onReady5 (enqueueAll msgs)).sent = msgs.reverse ∧
    (onReady5 (enqueueAll msgs)).pendingQueue = [] ∧
    ∀ m : Nat, ((onReady5 (enqueueAll msgs)).sent).count m = msgs.count m := by
  have he : enqueueAll msgs = ⟨false, msgs, []⟩ := by
    simpa [enqueueAll, chan5Init] using postAll_pending msgs [] []
  rw [he]
  have hs : (onReady5 ⟨false, msgs, []⟩).sent = msgs.reverse := by
    simp [onReady5, flushLoop_eq]
  exact ⟨hs, rfl, fun m => by rw [hs]; simp⟩

/-- C6: counterexample to the claim as stated.  A raised null falls under
the anything-else clause of the claim, which promises code runtime_error
with a stringified message; instead the normalization code itself throws a
TypeError when it reads the error property of null, and no pair is
produced. -/
theorem C6_raised_null_crashes_normalization :
    normalizeError JsValue.null = .error JsErr.typeError ∧
    ∀ p : JsValue × JsValue, normalizeError JsValue.null ≠ .ok p := by
  refine ⟨rfl, ?_⟩
  intro p h
  rw [show normalizeError JsValue.null = .error JsErr.typeError from rfl] at h
  exact Except.noConfusion h

/-- C6 (amended): the error normalization agrees everywhere with the
precedence written as a direct case split: a raised string yields
runtime_error with the string as message; a raised two-element array yields
code array[0] and message array[1], except that a null second element falls
through to the stringification of the whole array; a raised object with a
string error field yields that code with the message field, empty string, or
stringified fallback; raised null and undefined make the normalization
itself throw; anything else yields runtime_error with the stringification
fallback. -/
theorem C6_error_normalization_precedence (e : JsValue) :
    normalizeError e = specNormalizeError e := by
  cases e with
  | null => rfl
  | undefined => rfl
  | bool b => rfl
  | num n => rfl
  | str s => rfl
  | func t => rfl
  | arr xs =>
    cases xs with
    | nil => rfl
    | cons a tl =>
      cases tl with
      | nil => rfl
      | cons b tl2 =>
        cases tl2 with
        | nil => cases b <;> rfl
        | cons c tl3 => rfl
  | obj fs =>
    cases he : lookupField fs "error" with
    | none =>
      simp [normalizeError, specNormalizeError, typeofJs, truthyB, isArrB,
        getFieldE, getFieldD, he, tryHarderE_eq, isUndefB]
    | some ef =>
      cases ef
      case str c =>
        cases hm : lookupField fs "message" with
        | none =>
          simp [normalizeError, specNormalizeError, typeofJs, truthyB,
            isArrB, getFieldE, getFieldD, he, hm]
        | some m =>
          cases m <;>
            simp_all [normalizeError, specNormalizeError, typeofJs, truthyB,
              isArrB, getFieldE, getFieldD, tryHarderE, jsonMessage,
              jsonStringifyTop, toStringJsE, toStringPure]
      all_goals
        simp [normalizeError, specNormalizeError, typeofJs, truthyB, isArrB,
          getFieldE, getFieldD, he, tryHarderE_eq, isUndefB]

/-- C7: for an inbound transaction whose id is in the open table, the first
complete or error call succeeds, posts the corresponding message and removes
the id from the table, and every subsequent complete or error call on the
same transaction fails with the stale-transaction error; the sticky
delayReturn flag is arbitrary in the initial state, so this also covers
completion deferred via delayReturn(true). -/
theorem C7_at_most_one_completion (s : TransState) (op : TransOp)
    (ops : List TransOp) (h : s.inTable = true) :
    (transStep s op).2 = .ok (opMsg op) ∧
    (transStep s op).1.inTable = false ∧
    ∀ r ∈ (runOps (transStep s op).1 ops).2, r = .error .staleTransaction := by
  have h2 : transStep s op
      = ({ s with completed := true, inTable := false }, .ok (opMsg op)) := by
    cases op <;> simp [transStep, h, opMsg]
  refine ⟨by rw [h2], by rw [h2], ?_⟩
  rw [h2]
  exact runOps_stale _ ops rfl

/-- C7 witness: a transaction with delayReturn(true) set and id in the table
accepts complete(5) once, and the two following completion attempts both
fail with the stale-transaction error. -/
theorem C7_at_most_one_completion_witness :
    (⟨true, false, true⟩ : TransState).inTable = true ∧
    (transStep ⟨true, false, true⟩ (.complete 5)).2 = .ok (opMsg (.complete 5)) ∧
    (transStep ⟨true, false, true⟩ (.complete 5)).1.inTable = false ∧
    ∀ r ∈ (runOps (transStep ⟨true, false, true⟩ (.complete 5)).1
        [.complete 5, .errorOp 1 2]).2, r = .error .staleTransaction :=
  ⟨rfl,
   (C7_at_most_one_completion ⟨true, false, true⟩ (.complete 5)
      [.complete 5, .errorOp 1 2] rfl).1,
   (C7_at_most_one_completion ⟨true, false, true⟩ (.complete 5)
      [.complete 5, .errorOp 1 2] rfl).2.1,
   (C7_at_most_one_completion ⟨true, false, true⟩ (.complete 5)
      [.complete 5, .errorOp 1 2] rfl).2.2⟩

/-- C8: counterexample to the claim as stated.  Destroying a freshly built
channel succeeds and nulls its origin; calling destroy a second time on the
destroyed instance raises a TypeError (the registry holds no bucket under
the coerced key "null"), instead of raising no exception. -/
theorem C8_second_destroy_throws :
    destroy8 ⟨1, some "http://a.com", "s"⟩
        [("http://a.com", [("s", [(1, 10)])])] [7]
      = .ok (⟨1, none, "s"⟩, [("http://a.com", [])], [7]) ∧
    destroy8 ⟨1, none, "s"⟩ [("http://a.com", [])] [7] = .error .typeError :=
  ⟨rfl, rfl⟩

/-- C8 (amended): calling destroy on a channel whose origin was nulled by a
prior destroy raises a TypeError from the registry lookup, provided no
binding sits under the coerced key "null" (origins are validated at build
time, so none can); the exception is raised before any mutation, so the
shared registry and transaction tables are unchanged. -/
theorem C8_second_destroy_error_no_effect (c : Chan8) (bc : BoundChans)
    (tr : List Nat) (h : c.origin = none) (h2 : lookupA "null" bc = none) :
    destroy8 c bc tr = .error .typeError := by
  simp [destroy8, h, s_removeBoundChanE, h2]

/-- C8 witness: the amended statement instantiated at a destroyed channel
and the registry left by its first destroy. -/
theorem C8_second_destroy_error_no_effect_witness :
    (⟨1, none, "s"⟩ : Chan8).origin = none ∧
    lookupA "null" ([("http://a.com", [])] : BoundChans) = none ∧
    destroy8 ⟨1, none, "s"⟩ [("http://a.com", [])] [7] = .error .typeError :=
  ⟨rfl, rfl, C8_second_destroy_error_no_effect ⟨1, none, "s"⟩
    [("http://a.com", [])] [7] rfl rfl⟩

/-- C9: evaluation of the seeding expression at the failing input.  When the
random source yields 0, an admissible value of the interval from 0 inclusive
to 1 exclusive, the seed is 0, which is not odd, contradicting the claim
that every possible random value seeds an odd initial transaction id. -/
theorem C9_seed_even_at_zero :
    (0 : ℚ) ≤ 0 ∧ (0 : ℚ) < 1 ∧ s_curTranIdSeed 0 = 0 ∧
    ¬ Odd (s_curTranIdSeed 0) := by
  refine ⟨le_refl 0, by norm_num, by norm_num [s_curTranIdSeed], ?_⟩
  norm_num [s_curTranIdSeed, Int.odd_iff]

/-- C10: call prunes the params tree in place: when params is of typeof
object and the marshalling traversal returns (the recursion guard, which
fires when the shared null value is visited a second time, did not throw),
the resulting tree contains no function anywhere, and the recorded callbacks
list enumerates exactly the function-valued leaves the tree held before the
call, keyed by their slash-joined paths. -/
theorem C10_prune_removes_all_functions (v : JsValue) (v2 : JsValue)
    (cbs : List (String × Nat)) (sn : Bool)
    (h : typeofJs v = "object")
    (hok : pruneFunctions "" false v = .ok (v2, cbs, sn)) :
    hasFun v2 = false ∧ cbs = funLeaves "" v := by
  have hp := pruneFnOk "" false v
  rw [hok] at hp
  obtain ⟨hp1, hp2⟩ := hp
  exact ⟨hp1 h, hp2⟩

/-- C10 witness: pruning an object holding a function at onProgress, a
number at x and a null at n succeeds, removes the function and records it
under its path. -/
theorem C10_prune_removes_all_functions_witness :
    typeofJs (.obj (.cons "onProgress" (.func 0)
        (.cons "x" (.num 1) (.cons "n" .null .nil)))) = "object" ∧
    pruneFunctions "" false (.obj (.cons "onProgress" (.func 0)
        (.cons "x" (.num 1) (.cons "n" .null .nil))))
      = .ok (.obj (.cons "x" (.num 1) (.cons "n" .null .nil)),
             [("onProgress", 0)], true) ∧
    hasFun (.obj (.cons "x" (.num 1) (.cons "n" .null .nil))) = false ∧
    [("onProgress", 0)] = funLeaves "" (.obj (.cons "onProgress" (.func 0)
        (.cons "x" (.num 1) (.cons "n" .null .nil)))) :=
  ⟨rfl, rfl,
   (C10_prune_removes_all_functions
     (.obj (.cons "onProgress" (.func 0)
        (.cons "x" (.num 1) (.cons "n" .null .nil))))
     (.obj (.cons "x" (.num 1) (.cons "n" .null .nil)))
     [("onProgress", 0)] true rfl rfl).1,
   (C10_prune_removes_all_functions
     (.obj (.cons "onProgress" (.func 0)
        (.cons "x" (.num 1) (.cons "n" .null .nil))))
     (.obj (.cons "x" (.num 1) (.cons "n" .null .nil)))
     [("onProgress", 0)] true rfl rfl).2⟩
